import Mathlib

/-!
Verification development for the real-time customer-service routing core
(backend sources: `websocket_manager.py`, `ai_service.py`, `database.py`,
`server.py`, `models.py`).

The Python classes are shallowly embedded as pure Lean functions over
explicit state records.  Python dictionaries become association lists
(`List (String × α)`) with unique keys; Python `WebSocket` objects become
abstract channel identifiers (`Nat`); the external text-generation
collaborator (an `LlmChat` from an out-of-repo library) becomes an oracle
argument of type `Except String String` (error or generated text), and the
wall clock becomes explicit elapsed-millisecond arguments.  Side effects
(database writes, broadcasts) are threaded as explicit state plus an event
trace, in the exact order the source performs them.
-/

/-! ## Association-list model of Python dicts -/

/-- Lookup in a Python dict modelled as an association list
(first binding wins; states built from the operations below keep
keys unique, matching dict semantics). -/
def dictGet {α : Type} (k : String) : List (String × α) → Option α
  | [] => none
  | (k1, v) :: rest => if k1 = k then some v else dictGet k rest

/-- Python `d[k] = v`: replace the binding if the key is present,
otherwise append a new binding. -/
def dictSet {α : Type} (k : String) (v : α) : List (String × α) → List (String × α)
  | [] => [(k, v)]
  | (k1, v1) :: rest => if k1 = k then (k, v) :: rest else (k1, v1) :: dictSet k v rest

/-- Python `del d[k]`: drop the binding for `k`. -/
def dictErase {α : Type} (k : String) : List (String × α) → List (String × α)
  | [] => []
  | (k1, v1) :: rest => if k1 = k then dictErase k rest else (k1, v1) :: dictErase k rest

/-! ## ConnectionRegistry: embedding of `websocket_manager.ConnectionManager`

Channels (`WebSocket` objects) are abstract identifiers of type `Nat`.
The four instance dictionaries of `ConnectionManager.__init__` become the
four fields of `ConnState`.  Typing sets (`Set[str]`) become duplicate-free
string lists. -/

structure ConnState where
  /-- `active_connections`: conversation id to list of live channels. -/
  active_connections : List (String × List Nat)
  /-- `agent_connections`: agent user id to its direct channel. -/
  agent_connections : List (String × Nat)
  /-- `customer_connections`: customer user id to its direct channel. -/
  customer_connections : List (String × Nat)
  /-- `typing_indicators`: conversation id to user ids currently typing. -/
  typing_indicators : List (String × List String)
deriving DecidableEq, Repr

/-- The empty registry, as built by `ConnectionManager.__init__`. -/
def ConnState.empty : ConnState := ⟨[], [], [], []⟩

/-- `connect_to_conversation` (state mutations only; the channel accept and
the connection-confirmed acknowledgment do not change registry state and are
assumed to succeed).  Appends the channel to the conversation group, then
registers the role-specific direct-address entry (last-connect-wins). -/
def connect_to_conversation (s : ConnState) (ws : Nat) (conversation_id : String)
    (user_type : String) (user_id : String) : ConnState :=
  let group := (dictGet conversation_id s.active_connections).getD []
  let s1 :=
    { s with active_connections := dictSet conversation_id (group ++ [ws]) s.active_connections }
  if user_type = "agent" then
    { s1 with agent_connections := dictSet user_id ws s1.agent_connections }
  else if user_type = "customer" then
    { s1 with customer_connections := dictSet user_id ws s1.customer_connections }
  else s1

/-- First block of `disconnect_from_conversation`: remove the first
occurrence of the channel from the conversation group (no removal if
absent) and delete the group entry when the remaining list is empty. -/
def disconnect_group_step (s : ConnState) (ws : Nat) (conversation_id : String) : ConnState :=
  match dictGet conversation_id s.active_connections with
  | none => s
  | some group =>
    let group1 := if ws ∈ group then group.erase ws else group
    if group1.isEmpty then
      { s with active_connections := dictErase conversation_id s.active_connections }
    else
      { s with active_connections := dictSet conversation_id group1 s.active_connections }

/-- Second block of `disconnect_from_conversation`: remove each
role-specific direct-address entry only when it still points at this
channel. -/
def disconnect_direct_step (s : ConnState) (ws : Nat) (user_id : String) : ConnState :=
  let s2 :=
    if dictGet user_id s.agent_connections = some ws then
      { s with agent_connections := dictErase user_id s.agent_connections }
    else s
  if dictGet user_id s2.customer_connections = some ws then
    { s2 with customer_connections := dictErase user_id s2.customer_connections }
  else s2

/-- Third block of `disconnect_from_conversation`: discard the user from
the conversation typing set, deleting the set when emptied. -/
def disconnect_typing_step (s : ConnState) (conversation_id : String)
    (user_id : String) : ConnState :=
  match dictGet conversation_id s.typing_indicators with
  | none => s
  | some typers =>
    let typers1 := typers.erase user_id
    if typers1.isEmpty then
      { s with typing_indicators := dictErase conversation_id s.typing_indicators }
    else
      { s with typing_indicators := dictSet conversation_id typers1 s.typing_indicators }

/-- `disconnect_from_conversation`: the three blocks of the source in
order. -/
def disconnect_from_conversation (s : ConnState) (ws : Nat) (conversation_id : String)
    (user_id : String) : ConnState :=
  disconnect_typing_step
    (disconnect_direct_step (disconnect_group_step s ws conversation_id) ws user_id)
    conversation_id user_id

/-- The send loop of `broadcast_to_conversation`: iterate the group in
order, skip the excluded channel, attempt each send (outcome given by the
`sendFails` oracle), collecting delivered channels and failed channels in
iteration order.  A failed send does not stop the loop (per-iteration
try/except in the source). -/
def broadcastLoop (sendFails : Nat → Bool) (exclude : Option Nat) :
    List Nat → List Nat × List Nat
  | [] => ([], [])
  | ws :: rest =>
    let (d, f) := broadcastLoop sendFails exclude rest
    if some ws = exclude then (d, f)
    else if sendFails ws then (d, ws :: f) else (ws :: d, f)

/-- `broadcast_to_conversation`: if the conversation has no group entry,
return with no state change and no deliveries.  Otherwise run the send
loop, then remove each failed channel from the group list (first
occurrence, list kept under its key even when emptied; no other table is
touched).  Returns the new state, the delivered channels and the failed
channels. -/
def broadcast_to_conversation (s : ConnState) (conversation_id : String)
    (exclude : Option Nat) (sendFails : Nat → Bool) :
    ConnState × List Nat × List Nat :=
  match dictGet conversation_id s.active_connections with
  | none => (s, [], [])
  | some group =>
    let (delivered, failed) := broadcastLoop sendFails exclude group
    let group1 := failed.foldl (fun g ws => g.erase ws) group
    ({ s with active_connections := dictSet conversation_id group1 s.active_connections },
     delivered, failed)

/-! ## Data model: embedding of `models.py` (claim-relevant fields)

Timestamps, analytics metadata and classifier tags are omitted: no claim
refers to them.  Floating-point scores (`confidence`) are modelled as
rationals. -/

inductive AgentStatus
  | active
  | inactive
  | busy
  | maintenance
deriving DecidableEq, Repr

inductive MessageType
  | user
  | agent
  | system
  | internal
deriving DecidableEq, Repr

inductive ConversationStatus
  | active
  | resolved
  | escalated
  | pending
  | closed
deriving DecidableEq, Repr

/-- `AgentConfiguration` (model fields used by `initialize_agent_chat`). -/
structure AgentConfiguration where
  system_prompt : String
  model_provider : String
  model_name : String
deriving DecidableEq, Repr

/-- `Agent` (claim-relevant fields).  Loads are integers, matching Python. -/
structure Agent where
  id : String
  name : String
  status : AgentStatus
  current_load : Int
  max_concurrent_conversations : Int
  configuration : AgentConfiguration
deriving DecidableEq, Repr

/-- A stored `Message` (sender role and content; other metadata omitted). -/
structure Msg where
  sender_type : MessageType
  content : String
deriving DecidableEq, Repr

/-- `Conversation` (claim-relevant fields). -/
structure Conversation where
  id : String
  session_id : String
  customer_id : String
  assigned_agent_id : Option String
  status : ConversationStatus
  messages : List Msg
deriving DecidableEq, Repr

/-- `AgentResponse` (the TurnResult of the spec). -/
structure AgentResponse where
  message : String
  confidence : Rat
  processing_time_ms : Nat
  agent_id : String
  suggestions : List String
  requires_human_escalation : Bool
  escalation_reason : Option String
deriving DecidableEq, Repr

/-- The external `LlmChat` collaborator, modelled as a record: the fields
passed to its constructor by `initialize_agent_chat`, plus `history`, the
opaque conversational context the collaborator accumulates (empty at
construction). -/
structure LlmChat where
  session_id : String
  system_message : String
  model_provider : String
  model_name : String
  history : List String
deriving DecidableEq, Repr

/-! ## Database view: embedding of the `database.py` operations used by the
turn pipeline.  The Mongo collections become in-memory lists; each helper
mirrors one `DatabaseManager` method. -/

structure DbState where
  agents : List Agent
  conversations : List Conversation
deriving DecidableEq, Repr

/-- `get_conversation`: find by id. -/
def get_conversation (db : DbState) (conversation_id : String) : Option Conversation :=
  db.conversations.find? (fun c => c.id == conversation_id)

/-- `get_agent`: find by id. -/
def get_agent (db : DbState) (agent_id : String) : Option Agent :=
  db.agents.find? (fun a => a.id == agent_id)

/-- `get_agents(status=...)`: filter the directory by status, keeping
directory order. -/
def get_agents (db : DbState) (status : AgentStatus) : List Agent :=
  db.agents.filter (fun a => a.status == status)

/-- `update_agent_load`: `$inc` the current load of the given agent. -/
def update_agent_load (db : DbState) (agent_id : String) (load_change : Int) : DbState :=
  { db with agents := db.agents.map (fun a =>
      if a.id == agent_id then { a with current_load := a.current_load + load_change } else a) }

/-- `assign_agent_to_conversation`: `$set` the assigned agent id. -/
def assign_agent_to_conversation (db : DbState) (conversation_id : String)
    (agent_id : String) : DbState :=
  { db with conversations := db.conversations.map (fun c =>
      if c.id == conversation_id then { c with assigned_agent_id := some agent_id } else c) }

/-- `add_message_to_conversation`: `$push` a message onto the history. -/
def add_message_to_conversation (db : DbState) (conversation_id : String) (m : Msg) : DbState :=
  { db with conversations := db.conversations.map (fun c =>
      if c.id == conversation_id then { c with messages := c.messages ++ [m] } else c) }

/-- `update_conversation_status`: `$set` the status. -/
def update_conversation_status (db : DbState) (conversation_id : String)
    (status : ConversationStatus) : DbState :=
  { db with conversations := db.conversations.map (fun c =>
      if c.id == conversation_id then { c with status := status } else c) }

/-! ## MultiAgentCoordinator: embedding of `ai_service.py` -/

/-- Python `startswith` on character lists. -/
def startsWithChars : List Char → List Char → Bool
  | [], _ => true
  | _ :: _, [] => false
  | p :: ps, c :: cs => p == c && startsWithChars ps cs

/-- Python substring containment `pat in s` on character lists. -/
def containsSub (pat : List Char) : List Char → Bool
  | [] => pat.isEmpty
  | c :: rest => startsWithChars pat (c :: rest) || containsSub pat rest

/-- Python `str.lower()` (per-character lowering, as for ASCII text). -/
def pyLower (s : String) : List Char := s.data.map Char.toLower

/-- The fixed escalation keyword list of `_analyze_for_escalation`. -/
def escalation_keywords : List String :=
  ["refund", "cancel", "billing error", "complaint", "legal",
   "supervisor", "manager", "escalate", "frustrated", "angry"]

/-- `_analyze_for_escalation`: case-insensitive keyword match against the
incoming user message (the generated response is ignored). -/
def analyze_for_escalation (user_message : String) (ai_response : String) : Bool :=
  escalation_keywords.any (fun k => containsSub k.data (pyLower user_message))

/-- `_generate_suggestions`: fixed list, truncated to the first two. -/
def generate_suggestions (user_message : String) (ai_response : String) : List String :=
  (["Is there anything else I can help you with?",
    "Would you like me to provide additional information?",
    "Do you need help with anything related to this topic?"]).take 2

/-- Python `min(available, key=lambda a: a.current_load)`: the fold keeps
the earlier element on ties, so the first minimum in iteration order wins. -/
def pyMinByLoad (best : Agent) : List Agent → Agent
  | [] => best
  | a :: rest => pyMinByLoad (if a.current_load < best.current_load then a else best) rest

/-- `get_best_agent_for_conversation`: active agents from the directory;
`None` when there are none; filter to agents with spare capacity; `None`
when that set is empty; otherwise the minimum-load agent, ties broken by
directory order. -/
def get_best_agent_for_conversation (db : DbState) : Option Agent :=
  let agents := get_agents db AgentStatus.active
  if agents.isEmpty then none
  else
    let available :=
      agents.filter (fun a => a.current_load < a.max_concurrent_conversations)
    match available with
    | [] => none
    | a :: rest => some (pyMinByLoad a rest)

/-- The session map `active_chats`, keyed by the string
`agent_id ++ "_" ++ session_id` exactly as in the source. -/
abbrev ChatMap : Type := List (String × LlmChat)

/-- `initialize_agent_chat`: construct a fresh `LlmChat` from the agent
configuration; its conversational context starts empty. -/
def initialize_agent_chat (agent : Agent) (session_id : String) : LlmChat :=
  { session_id := session_id,
    system_message := agent.configuration.system_prompt,
    model_provider := agent.configuration.model_provider,
    model_name := agent.configuration.model_name,
    history := [] }

/-- The chat key `f"{agent_id}_{session_id}"`. -/
def chatKey (agent_id : String) (session_id : String) : String :=
  agent_id ++ "_" ++ session_id

/-- Lines 96-101 of `ai_service.py`: reuse the stored chat for the key, or
initialize a fresh one and store it under the key. -/
def getOrCreateChat (chats : ChatMap) (agent : Agent) (session_id : String) :
    LlmChat × ChatMap :=
  match dictGet (chatKey agent.id session_id) chats with
  | some chat => (chat, chats)
  | none =>
    let chat := initialize_agent_chat agent session_id
    (chat, dictSet (chatKey agent.id session_id) chat chats)

/-- `cleanup_chat_session`: delete the key if present (no-op otherwise). -/
def cleanup_chat_session (chats : ChatMap) (agent_id : String) (session_id : String) :
    ChatMap :=
  match dictGet (chatKey agent_id session_id) chats with
  | some _ => dictErase (chatKey agent_id session_id) chats
  | none => chats

/-- Context assembly of `generate_response` lines 103-123: tag the last ten
stored messages by role (user and agent messages only), prepend the
serialized customer context, and append the new customer message. -/
def build_full_message (conv : Conversation) (message_content : String)
    (customer_context : Option String) : String :=
  let recent := conv.messages.drop (conv.messages.length - 10)
  let context_messages := recent.filterMap (fun m =>
    match m.sender_type with
    | MessageType.user => some ("Customer: " ++ m.content)
    | MessageType.agent => some ("Agent: " ++ m.content)
    | _ => none)
  let context_str :=
    (match customer_context with
     | some c => "Customer Context: " ++ c ++ "\n\n"
     | none => "") ++
    (if context_messages.isEmpty then ""
     else "Conversation History:\n" ++ String.intercalate "\n" context_messages ++ "\n\n")
  context_str ++ "Customer Message: " ++ message_content

/-- The fallback `AgentResponse` built in the exception handler of
`generate_response` (elapsed time measured at the failure point). -/
def fallback_response (elapsed_ms : Nat) : AgentResponse :=
  { message := "I apologize, but I\x27m experiencing technical difficulties. Please hold on while I connect you with a human agent.",
    confidence := 1/10,
    processing_time_ms := elapsed_ms,
    agent_id := "system",
    suggestions := [],
    requires_human_escalation := true,
    escalation_reason := some "Technical error in AI system" }

/-! ## Effect traces

External effects of one turn (database writes, collaborator calls and
registry broadcasts), recorded in the order the source performs them. -/

inductive Ev
  /-- `add_message_to_conversation`: a message appended to stored history. -/
  | persistMsg (conversation_id : String) (sender_type : MessageType) (content : String)
  /-- `assign_agent_to_conversation`. -/
  | assignAgent (conversation_id : String) (agent_id : String)
  /-- `update_agent_load`. -/
  | updateLoad (agent_id : String) (load_change : Int)
  /-- `chat.send_message`: the call to the text-generation collaborator. -/
  | llmCall (prompt : String)
  /-- `send_message_to_conversation`: a new-message frame broadcast. -/
  | broadcastMsg (conversation_id : String) (sender_type : MessageType) (content : String)
  /-- `send_agent_assignment`: an agent-assigned frame broadcast. -/
  | broadcastAgentAssigned (conversation_id : String) (agent_id : String)
  /-- `send_escalation_notice`: an escalation frame broadcast. -/
  | broadcastEscalation (conversation_id : String) (reason : Option String)
  /-- `update_conversation_status`. -/
  | setStatus (conversation_id : String) (status : ConversationStatus)
deriving DecidableEq, Repr

/-- `ConnectionManager.send_agent_assignment` at the trace level: one
agent-assigned broadcast.  Defined for completeness: `grep` over the
backend shows no caller invokes it. -/
def send_agent_assignment (conversation_id : String) (agent_id : String)
    (agent_name : String) : List Ev :=
  [Ev.broadcastAgentAssigned conversation_id agent_id]

/-- Result of one `generate_response` call: the returned `AgentResponse`,
the database and session-map state after the call, and the effect trace. -/
structure GenResult where
  response : AgentResponse
  db : DbState
  chats : ChatMap
  events : List Ev
deriving Repr

/-- The tail of `generate_response` once an agent is resolved (lines
96-146): resolve or create the chat session, assemble the prompt, invoke
the collaborator (outcome given by the `llm` oracle), and either build the
normal response (confidence 0.85, escalation analysis on the raw incoming
message) or fall back to the degraded response when the collaborator
raises.  Database state and the session map mutated so far are retained on
both paths, as in the source (the except-handler does not undo them). -/
def generate_response_with_agent (db : DbState) (chats : ChatMap) (conv : Conversation)
    (agent : Agent) (message_content : String) (customer_context : Option String)
    (llm : Except String String) (elapsed_ok_ms elapsed_err_ms : Nat)
    (evs : List Ev) : GenResult :=
  let chats1 := (getOrCreateChat chats agent conv.session_id).2
  let full_message := build_full_message conv message_content customer_context
  match llm with
  | Except.error _ =>
    { response := fallback_response elapsed_err_ms, db := db, chats := chats1,
      events := evs ++ [Ev.llmCall full_message] }
  | Except.ok text =>
    let requires_escalation := analyze_for_escalation message_content text
    let escalation_reason :=
      if requires_escalation then some "Complex issue requiring human expertise" else none
    { response :=
        { message := text,
          confidence := 17/20,
          processing_time_ms := elapsed_ok_ms,
          agent_id := agent.id,
          suggestions := generate_suggestions message_content text,
          requires_human_escalation := requires_escalation,
          escalation_reason := escalation_reason },
      db := db, chats := chats1,
      events := evs ++ [Ev.llmCall full_message] }

/-- `generate_response`: look up the conversation; resolve its assigned
agent, or select, persist and load-count a new one; then run the
generation tail.  Every internal failure (missing conversation, no
available agent, collaborator error) is caught by the except-handler and
converted to the fallback response, so the function is total and never
propagates an error. -/
def generate_response (db : DbState) (chats : ChatMap) (conversation_id : String)
    (message_content : String) (customer_context : Option String)
    (llm : Except String String) (elapsed_ok_ms elapsed_err_ms : Nat) : GenResult :=
  match get_conversation db conversation_id with
  | none =>
    { response := fallback_response elapsed_err_ms, db := db, chats := chats, events := [] }
  | some conv =>
    match conv.assigned_agent_id.bind (get_agent db) with
    | some agent =>
      generate_response_with_agent db chats conv agent message_content customer_context
        llm elapsed_ok_ms elapsed_err_ms []
    | none =>
      match get_best_agent_for_conversation db with
      | none =>
        { response := fallback_response elapsed_err_ms, db := db, chats := chats, events := [] }
      | some agent =>
        let db1 := assign_agent_to_conversation db conversation_id agent.id
        let db2 := update_agent_load db1 agent.id 1
        generate_response_with_agent db2 chats conv agent message_content customer_context
          llm elapsed_ok_ms elapsed_err_ms
          [Ev.assignAgent conversation_id agent.id, Ev.updateLoad agent.id 1]

/-- `cleanup_chat_session` wrapper name kept for the coordinator method. -/
def MultiAgentCoordinator.cleanup := cleanup_chat_session

/-! ## Turn pipeline: embedding of `server.send_message` -/

/-- Result of one `send_message` request (success side). -/
structure TurnOutcome where
  response : AgentResponse
  db : DbState
  chats : ChatMap
  events : List Ev
deriving Repr

/-- `send_message` (lines 250-334 of `server.py`): 404 when the
conversation is unknown; otherwise persist the inbound message, run
`generate_response`, persist the outbound message, broadcast the inbound
then the outbound message, and on escalation broadcast an escalation
notice and set the conversation status to `escalated`.  Classifier tagging
of the inbound message touches no claim-relevant state and is omitted. -/
def send_message (db : DbState) (chats : ChatMap) (conversation_id : String)
    (content : String) (customer_context : Option String)
    (llm : Except String String) (elapsed_ok_ms elapsed_err_ms : Nat) :
    Except Nat TurnOutcome :=
  match get_conversation db conversation_id with
  | none => Except.error 404
  | some conv =>
    let user_msg : Msg := { sender_type := MessageType.user, content := content }
    let db1 := add_message_to_conversation db conversation_id user_msg
    let g := generate_response db1 chats conversation_id content customer_context
      llm elapsed_ok_ms elapsed_err_ms
    let agent_msg : Msg := { sender_type := MessageType.agent, content := g.response.message }
    let db2 := add_message_to_conversation g.db conversation_id agent_msg
    let db3 :=
      if g.response.requires_human_escalation then
        update_conversation_status db2 conversation_id ConversationStatus.escalated
      else db2
    let events :=
      Ev.persistMsg conversation_id MessageType.user content ::
        (g.events ++
          [Ev.persistMsg conversation_id MessageType.agent g.response.message,
           Ev.broadcastMsg conversation_id MessageType.user content,
           Ev.broadcastMsg conversation_id MessageType.agent g.response.message] ++
          (if g.response.requires_human_escalation then
            [Ev.broadcastEscalation conversation_id g.response.escalation_reason,
             Ev.setStatus conversation_id ConversationStatus.escalated]
           else []))
    Except.ok { response := g.response, db := db3, chats := g.chats, events := events }

/-- A registry with one live channel (5) for conversation "c", registered
as the direct channel of agent "u", who is typing. -/
def c3state : ConnState := ⟨[("c", [5])], [("u", 5)], [], [("c", ["u"])]⟩

/-! ## Claim theorems for agent selection -/

/-- A model configuration shared by the example agents. -/
def exampleConfig : AgentConfiguration :=
  ⟨"You are a helpful customer service agent.", "openai", "gpt-4o-mini"⟩

/-- An active agent already at its concurrency capacity. -/
def saturatedAgent : Agent := ⟨"a-sat", "Sat", AgentStatus.active, 10, 10, exampleConfig⟩

/-- The eligible set of the router: active agents with spare capacity, in
directory order. -/
def availableActive (db : DbState) : List Agent :=
  (get_agents db AgentStatus.active).filter
    (fun a => a.current_load < a.max_concurrent_conversations)

/-- An active example agent with capacity 10 and the given load. -/
def mkLoadAgent (i : String) (l : Int) : Agent := ⟨i, i, AgentStatus.active, l, 10, exampleConfig⟩

/-- The directory snapshot of the spec example: loads [3,1,1,5]. -/
def loadedAgents : List Agent :=
  [mkLoadAgent "a0" 3, mkLoadAgent "a1" 1, mkLoadAgent "a2" 1, mkLoadAgent "a3" 5]

/-- The specification predicate for escalation (from the claim text): the
lower-cased raw incoming message contains one of the fixed keywords as a
substring. -/
def SpecEscalation (message : String) : Prop :=
  ∃ k ∈ escalation_keywords, ∃ l r, pyLower message = l ++ k.data ++ r

/-- A database with one idle active agent and one unassigned conversation,
used by the turn-level witnesses. -/
def witnessDb : DbState :=
  ⟨[mkLoadAgent "a1" 0], [⟨"c1", "s1", "cust", none, ConversationStatus.active, []⟩]⟩

/-- The conversation stored in `witnessDb`. -/
def witnessConv : Conversation := ⟨"c1", "s1", "cust", none, ConversationStatus.active, []⟩

/-- A chat entry with residual conversational context, used by the C6
witness. -/
def residualChat : LlmChat := ⟨"s1", "sys", "openai", "gpt-4o-mini", ["old turn"]⟩

/-- Whether a trace event is a registry broadcast of any frame kind. -/
def isBroadcastEv : Ev → Bool
  | Ev.broadcastMsg _ _ _ => true
  | Ev.broadcastAgentAssigned _ _ => true
  | Ev.broadcastEscalation _ _ => true
  | _ => false

/-! ## Persist-before-broadcast machinery (claim C4) -/

/-- Events that neither persist nor broadcast a conversation message. -/
def evNeutral : Ev → Bool
  | Ev.persistMsg _ _ _ => false
  | Ev.broadcastMsg _ _ _ => false
  | _ => true

/-- Scan a trace left to right, accumulating the persisted (role, content)
pairs; every message broadcast must concern an already persisted pair. -/
def persistedBeforeBroadcast (seen : List (MessageType × String)) : List Ev → Bool
  | [] => true
  | Ev.persistMsg _ st c :: rest => persistedBeforeBroadcast ((st, c) :: seen) rest
  | Ev.broadcastMsg _ st c :: rest =>
    if (st, c) ∈ seen then persistedBeforeBroadcast seen rest else false
  | _ :: rest => persistedBeforeBroadcast seen rest

/-! ## Connect/Disconnect direct-address machinery (claim C5) -/

/-- One registry call on a fixed `(conversation, participant)` pair. -/
inductive ConnOp
  | connect (ws : Nat)
  | disconnect (ws : Nat)
deriving DecidableEq, Repr

/-- Run a sequence of Connect/Disconnect calls for one conversation, one
participant and one role against the registry. -/
def applyConnOps (conversation_id user_id user_type : String) :
    ConnState → List ConnOp → ConnState
  | s, [] => s
  | s, ConnOp.connect ws :: rest =>
    applyConnOps conversation_id user_id user_type
      (connect_to_conversation s ws conversation_id user_type user_id) rest
  | s, ConnOp.disconnect ws :: rest =>
    applyConnOps conversation_id user_id user_type
      (disconnect_from_conversation s ws conversation_id user_id) rest

/-- The role-specific direct-address table. -/
def directTable (user_type : String) (s : ConnState) : List (String × Nat) :=
  if user_type = "agent" then s.agent_connections else s.customer_connections

/-- Left-fold semantics of the direct-address entry of one participant:
connect overwrites, disconnect clears only a matching entry. -/
def directFold : Option Nat → List ConnOp → Option Nat
  | cur, [] => cur
  | _, ConnOp.connect w :: rest => directFold (some w) rest
  | cur, ConnOp.disconnect w :: rest =>
    directFold (if cur = some w then none else cur) rest

/-- Scan the reversed call sequence: the entry survives exactly when the
first (that is, chronologically last) Connect found is not matched by a
later Disconnect of the same channel. -/
def lastLiveAux : List ConnOp → List Nat → Option Nat
  | [], _ => none
  | ConnOp.connect w :: _, laterDiscs => if w ∈ laterDiscs then none else some w
  | ConnOp.disconnect w :: earlier, laterDiscs => lastLiveAux earlier (w :: laterDiscs)

/-- Modelled from the claim text (specification side of C5): the channel of
the last Connect in the sequence, provided that Connect has not been
followed by a matching Disconnect; `none` otherwise. -/
def specLastConnectSurvivor (ops : List ConnOp) : Option Nat :=
  lastLiveAux ops.reverse []

/-! ## Theorems -/
theorem dictGet_dictSet_self {α : Type} (k : String) (v : α) (m : List (String × α)) :
    dictGet k (dictSet k v m) = some v := by
  induction m with
  | nil => simp [dictGet, dictSet]
  | cons p rest ih =>
    obtain ⟨k1, v1⟩ := p
    by_cases h : k1 = k
    · simp [dictGet, dictSet, h]
    · simp [dictGet, dictSet, h, ih]

theorem dictGet_dictSet_ne {α : Type} (k k2 : String) (v : α) (m : List (String × α))
    (h : k2 ≠ k) : dictGet k2 (dictSet k v m) = dictGet k2 m := by
  induction m with
  | nil => simp [dictGet, dictSet, Ne.symm h]
  | cons p rest ih =>
    obtain ⟨k1, v1⟩ := p
    by_cases h1 : k1 = k
    · subst h1
      simp [dictGet, dictSet, Ne.symm h]
    · simp only [dictSet, if_neg h1]
      by_cases h2 : k1 = k2
      · simp [dictGet, h2]
      · simp [dictGet, h2, ih]

theorem dictGet_dictErase_self {α : Type} (k : String) (m : List (String × α)) :
    dictGet k (dictErase k m) = none := by
  induction m with
  | nil => rfl
  | cons p rest ih =>
    obtain ⟨k1, v1⟩ := p
    by_cases h : k1 = k
    · simpa [dictErase, h] using ih
    · simpa [dictErase, dictGet, h] using ih

theorem dictGet_dictErase_ne {α : Type} (k k2 : String) (m : List (String × α))
    (h : k2 ≠ k) : dictGet k2 (dictErase k m) = dictGet k2 m := by
  induction m with
  | nil => rfl
  | cons p rest ih =>
    obtain ⟨k1, v1⟩ := p
    by_cases h1 : k1 = k
    · subst h1
      simpa [dictErase, dictGet, Ne.symm h] using ih
    · by_cases h2 : k1 = k2
      · simp [dictErase, dictGet, h1, h2, h]
      · simp [dictErase, dictGet, h1, h2, ih]

theorem dictSet_of_dictGet_eq {α : Type} (k : String) (v : α) (m : List (String × α))
    (h : dictGet k m = some v) : dictSet k v m = m := by
  induction m with
  | nil => simp [dictGet] at h
  | cons p rest ih =>
    obtain ⟨k1, v1⟩ := p
    by_cases h1 : k1 = k
    · subst h1
      simp [dictGet] at h
      simp [dictSet, h]
    · simp only [dictGet, if_neg h1] at h
      simp [dictSet, h1, ih h]

/-! ## Broadcast lemmas -/

theorem broadcastLoop_eq (sendFails : Nat → Bool) (ex : Option Nat) (l : List Nat) :
    broadcastLoop sendFails ex l =
      (l.filter (fun ws => !decide (some ws = ex) && !sendFails ws),
       l.filter (fun ws => !decide (some ws = ex) && sendFails ws)) := by
  induction l with
  | nil => rfl
  | cons ws rest ih =>
    by_cases h : some ws = ex
    · simp [broadcastLoop, h, ih]
    · by_cases hf : sendFails ws <;> simp [broadcastLoop, h, hf, ih]

theorem filter_partition_length (l : List Nat) (p q : Nat → Bool) :
    (l.filter (fun w => p w && !q w)).length + (l.filter (fun w => p w && q w)).length =
      (l.filter p).length := by
  induction l with
  | nil => rfl
  | cons a rest ih =>
    by_cases hp : p a
    · by_cases hq : q a <;> simp [hp, hq, ← ih] <;> omega
    · simp [hp, ih]

theorem length_filter_ne_of_nodup (l : List Nat) (e : Nat) (hd : l.Nodup) (he : e ∈ l) :
    (l.filter (fun w => !decide (w = e))).length + 1 = l.length := by
  induction l with
  | nil => cases he
  | cons a rest ih =>
    rcases List.nodup_cons.mp hd with ⟨ha, hrest⟩
    by_cases hae : a = e
    · subst hae
      have hfil : rest.filter (fun w => !decide (w = a)) = rest := by
        refine List.filter_eq_self.mpr ?_
        intro w hw
        simp only [Bool.not_eq_true', decide_eq_false_iff_not]
        intro hwa
        exact ha (hwa ▸ hw)
      simp [hfil]
    · have hmem : e ∈ rest := by
        rcases List.mem_cons.mp he with hh | hh
        · exact absurd hh.symm hae
        · exact hh
      simp [hae, ih hrest hmem]

/-! ## Claim theorems for the ConnectionRegistry -/

/-- Claim C10: broadcasting to a conversation id with no group entry
returns without raising, delivers to no channel, fails on no channel, and
leaves the whole registry state unchanged. -/
theorem claim_C10 (s : ConnState) (conversation_id : String) (exclude : Option Nat)
    (sendFails : Nat → Bool) (h : dictGet conversation_id s.active_connections = none) :
    broadcast_to_conversation s conversation_id exclude sendFails = (s, [], []) := by
  unfold broadcast_to_conversation
  rw [h]

/-- Witness for C10 at a concrete registry state. -/
theorem claim_C10_witness :
    broadcast_to_conversation ConnState.empty "conv-1" none (fun _ => false) =
      (ConnState.empty, [], []) :=
  claim_C10 ConnState.empty "conv-1" none (fun _ => false) rfl

/-- Counterexample to C3 as stated: when the only channel of conversation
"c" fails during a broadcast, the resulting registry differs from the one
`Disconnect` would produce: the broadcast keeps the (now empty) group
entry, the direct-address entry and the typing flag, while a disconnect
would remove all three. -/
theorem claim_C3_counterexample :
    (broadcast_to_conversation c3state "c" none (fun _ => true)).1 ≠
      disconnect_from_conversation c3state 5 "c" "u" := by
  decide

/-- Claim C3 (amended): with the group of the conversation present,
duplicate-free and containing the excluded channel, broadcast attempts
exactly the N-1 non-excluded channels (delivered plus failed), a failed
send does not prevent delivery to any other channel, the failed channels
are exactly attempted channels whose send fails, and afterwards the failed
channels have been removed from the conversation group list only: the
group entry is kept (possibly empty) and the direct-address tables and
typing state are untouched (unlike `Disconnect`). -/
theorem claim_C3_amended (s : ConnState) (conversation_id : String) (e : Nat)
    (group : List Nat) (sendFails : Nat → Bool)
    (h : dictGet conversation_id s.active_connections = some group)
    (hd : group.Nodup) (he : e ∈ group) :
    ((broadcast_to_conversation s conversation_id (some e) sendFails).2.1.length +
       (broadcast_to_conversation s conversation_id (some e) sendFails).2.2.length) + 1 =
      group.length ∧
    (∀ w ∈ group, w ≠ e → sendFails w = false →
      w ∈ (broadcast_to_conversation s conversation_id (some e) sendFails).2.1) ∧
    (∀ w, w ∈ (broadcast_to_conversation s conversation_id (some e) sendFails).2.2 →
      sendFails w = true ∧ w ∈ group ∧ w ≠ e) ∧
    (broadcast_to_conversation s conversation_id (some e) sendFails).1.agent_connections =
      s.agent_connections ∧
    (broadcast_to_conversation s conversation_id (some e) sendFails).1.customer_connections =
      s.customer_connections ∧
    (broadcast_to_conversation s conversation_id (some e) sendFails).1.typing_indicators =
      s.typing_indicators ∧
    dictGet conversation_id
        (broadcast_to_conversation s conversation_id (some e) sendFails).1.active_connections =
      some (((broadcast_to_conversation s conversation_id (some e) sendFails).2.2).foldl
        (fun g w => g.erase w) group) := by
  simp only [broadcast_to_conversation, h, broadcastLoop_eq]
  refine ⟨?_, ?_, ?_, trivial, trivial, trivial, ?_⟩
  · have h1 := filter_partition_length group (fun ws => !decide (some ws = some e)) sendFails
    have h2 : (group.filter (fun ws => !decide (some ws = some e))).length + 1 =
        group.length := by
      have hp : (fun ws : Nat => !decide (some ws = some e)) =
          (fun ws : Nat => !decide (ws = e)) := by
        funext ws
        simp
      rw [hp]
      exact length_filter_ne_of_nodup group e hd he
    omega
  · intro w hw hne hf
    simp [List.mem_filter, hw, hne, hf]
  · intro w hw
    simp only [List.mem_filter, Bool.and_eq_true, Bool.not_eq_true', decide_eq_false_iff_not,
      Option.some.injEq] at hw
    exact ⟨hw.2.2, hw.1, hw.2.1⟩
  · rw [dictGet_dictSet_self]

/-- Witness for the amended C3 at a concrete registry: three channels, one
excluded, one failing. -/
theorem claim_C3_amended_witness :
    ((broadcast_to_conversation ⟨[("c", [1, 2, 3])], [], [], []⟩ "c" (some 3)
        (fun w => w == 2)).2.1.length +
      (broadcast_to_conversation ⟨[("c", [1, 2, 3])], [], [], []⟩ "c" (some 3)
        (fun w => w == 2)).2.2.length) + 1 = 3 ∧
    1 ∈ (broadcast_to_conversation ⟨[("c", [1, 2, 3])], [], [], []⟩ "c" (some 3)
        (fun w => w == 2)).2.1 := by
  have h := claim_C3_amended ⟨[("c", [1, 2, 3])], [], [], []⟩ "c" 3 [1, 2, 3]
    (fun w => w == 2) rfl (by decide) (by decide)
  exact ⟨h.1, h.2.1 1 (by decide) (by decide) (by decide)⟩

/-- Counterexample to C2 as stated: the selection result for an empty
directory and for a directory whose only active agent is saturated are the
same value (`none`), so a caller cannot tell the two failure conditions
apart from the result; no distinct error kinds exist. -/
theorem claim_C2_counterexample :
    get_best_agent_for_conversation ⟨[], []⟩ =
        get_best_agent_for_conversation ⟨[saturatedAgent], []⟩ ∧
      get_best_agent_for_conversation ⟨[saturatedAgent], []⟩ = none := by
  constructor <;> rfl

/-- Claim C2 (amended): agent selection returns `none` both when the
directory has no active agents and when every active agent has
`currentLoad >= maxConcurrentConversations`; the two failure conditions
produce identical results (and `generate_response` maps both to the same
fallback response), so they are not distinguishable by the caller. -/
theorem claim_C2_amended :
    (∀ db : DbState,
      (get_agents db AgentStatus.active = [] →
        get_best_agent_for_conversation db = none) ∧
      ((∀ a ∈ get_agents db AgentStatus.active,
          ¬(a.current_load < a.max_concurrent_conversations)) →
        get_best_agent_for_conversation db = none)) ∧
    (∀ (conv : Conversation) (chats : ChatMap) (msg : String) (ctx : Option String)
       (llm : Except String String) (tOk tErr : Nat),
      conv.assigned_agent_id = none →
      (generate_response ⟨[], [conv]⟩ chats conv.id msg ctx llm tOk tErr).response =
          fallback_response tErr ∧
        (generate_response ⟨[saturatedAgent], [conv]⟩ chats conv.id msg ctx llm tOk tErr).response =
          fallback_response tErr) := by
  constructor
  · intro db
    constructor
    · intro h
      simp only [get_best_agent_for_conversation, h]
      rfl
    · intro h
      simp only [get_best_agent_for_conversation]
      by_cases he : (get_agents db AgentStatus.active).isEmpty
      · simp [he]
      · have hfil : (get_agents db AgentStatus.active).filter
            (fun a => a.current_load < a.max_concurrent_conversations) = [] := by
          refine List.filter_eq_nil_iff.mpr ?_
          intro a ha
          simpa using h a ha
        simp [he, hfil]
  · intro conv chats msg ctx llm tOk tErr hun
    have hconv : ∀ ags : List Agent,
        get_conversation ⟨ags, [conv]⟩ conv.id = some conv := by
      intro ags
      simp [get_conversation, List.find?]
    constructor
    · simp [generate_response, hconv, hun, Option.bind]
      rfl
    · simp [generate_response, hconv, hun, Option.bind]
      rfl

/-- Witness for the amended C2: a saturated singleton directory yields
`none`, and `generate_response` on an unassigned conversation with an
empty directory yields the fallback response. -/
theorem claim_C2_amended_witness :
    get_best_agent_for_conversation ⟨[saturatedAgent], []⟩ = none ∧
      (generate_response ⟨[], [⟨"c1", "s1", "cust", none, ConversationStatus.active, []⟩]⟩
          [] "c1" "hi" none (Except.ok "x") 3 4).response = fallback_response 4 := by
  refine ⟨(claim_C2_amended.1 ⟨[saturatedAgent], []⟩).2 ?_, ?_⟩
  · decide
  · exact (claim_C2_amended.2 ⟨"c1", "s1", "cust", none, ConversationStatus.active, []⟩
      [] "hi" none (Except.ok "x") 3 4 rfl).1

/-- Python `min` with a key returns the first element attaining the
minimum: the start list decomposes around the result, everything before it
has strictly greater load, everything after has load at least as large. -/
theorem pyMinByLoad_decomp (rest : List Agent) :
    ∀ best : Agent, ∃ l1 l2, best :: rest = l1 ++ pyMinByLoad best rest :: l2 ∧
      (∀ b ∈ l1, (pyMinByLoad best rest).current_load < b.current_load) ∧
      (∀ b ∈ l2, (pyMinByLoad best rest).current_load ≤ b.current_load) := by
  induction rest with
  | nil =>
    intro best
    exact ⟨[], [], rfl, by simp, by simp⟩
  | cons a rest ih =>
    intro best
    by_cases ha : a.current_load < best.current_load
    · obtain ⟨l1, l2, hdec, hl1, hl2⟩ := ih a
      have hr : pyMinByLoad best (a :: rest) = pyMinByLoad a rest := by
        simp [pyMinByLoad, ha]
      have hra : (pyMinByLoad a rest).current_load ≤ a.current_load := by
        cases l1 with
        | nil =>
          simp only [List.nil_append, List.cons.injEq] at hdec
          rw [← hdec.1]
        | cons x l1s =>
          simp only [List.cons_append, List.cons.injEq] at hdec
          have hx := hl1 x (by simp)
          rw [← hdec.1] at hx
          exact le_of_lt hx
      refine ⟨best :: l1, l2, ?_, ?_, ?_⟩
      · rw [hr]
        simp only [List.cons_append]
        exact congrArg (fun t => best :: t) hdec
      · intro b hb
        rcases List.mem_cons.mp hb with hb | hb
        · rw [hr, hb]
          exact lt_of_le_of_lt hra ha
        · rw [hr]
          exact hl1 b hb
      · intro b hb
        rw [hr]
        exact hl2 b hb
    · obtain ⟨l1, l2, hdec, hl1, hl2⟩ := ih best
      have hr : pyMinByLoad best (a :: rest) = pyMinByLoad best rest := by
        simp [pyMinByLoad, ha]
      have hba : best.current_load ≤ a.current_load := le_of_not_lt ha
      cases l1 with
      | nil =>
        simp only [List.nil_append, List.cons.injEq] at hdec
        refine ⟨[], a :: rest, ?_, by simp, ?_⟩
        · rw [hr, ← hdec.1]
          rfl
        · intro b hb
          rcases List.mem_cons.mp hb with hb | hb
          · rw [hr, ← hdec.1, hb]
            exact hba
          · rw [hr]
            exact hl2 b (hdec.2 ▸ hb)
      | cons x l1s =>
        simp only [List.cons_append, List.cons.injEq] at hdec
        have hrb : (pyMinByLoad best rest).current_load < best.current_load := by
          have hx := hl1 x (by simp)
          rwa [← hdec.1] at hx
        refine ⟨best :: a :: l1s, l2, ?_, ?_, ?_⟩
        · rw [hr]
          simp only [List.cons_append]
          exact congrArg (fun t => best :: a :: t) hdec.2
        · intro b hb
          rcases List.mem_cons.mp hb with hb | hb
          · rw [hr, hb]
            exact hrb
          · rcases List.mem_cons.mp hb with hb2 | hb2
            · rw [hr, hb2]
              exact lt_of_lt_of_le hrb hba
            · rw [hr]
              exact hl1 b (List.mem_cons_of_mem x hb2)
        · intro b hb
          rw [hr]
          exact hl2 b hb

/-- Claim C7: on any directory snapshot whose eligible set is nonempty,
selection returns the eligible agent of minimum load, ties broken by
directory iteration order (everything before the result in the eligible
list has strictly greater load); the embedded selection function is pure
(it returns an `Option Agent` from the snapshot and touches no state); on
loads [3,1,1,5] with capacity 10 it returns the first load-1 agent. -/
theorem claim_C7 :
    (∀ (db : DbState) (a : Agent) (rest : List Agent),
      availableActive db = a :: rest →
      ∃ l1 l2 r, get_best_agent_for_conversation db = some r ∧
        a :: rest = l1 ++ r :: l2 ∧
        (∀ b ∈ l1, r.current_load < b.current_load) ∧
        (∀ b ∈ l2, r.current_load ≤ b.current_load)) ∧
    get_best_agent_for_conversation ⟨loadedAgents, []⟩ = some (mkLoadAgent "a1" 1) := by
  constructor
  · intro db a rest hav
    simp only [availableActive] at hav
    have hne : (get_agents db AgentStatus.active).isEmpty = false := by
      cases hag : get_agents db AgentStatus.active with
      | nil => rw [hag] at hav; simp at hav
      | cons x xs => rfl
    obtain ⟨l1, l2, hdec, hl1, hl2⟩ := pyMinByLoad_decomp rest a
    refine ⟨l1, l2, pyMinByLoad a rest, ?_, hdec, hl1, hl2⟩
    simp only [get_best_agent_for_conversation, hne, Bool.false_eq_true, if_false, hav]
  · decide

/-- Witness for C7: the spec example, where the eligible set is the whole
directory and the returned agent is the first load-1 agent. -/
theorem claim_C7_witness :
    ∃ l1 l2 r, get_best_agent_for_conversation ⟨loadedAgents, []⟩ = some r ∧
      mkLoadAgent "a0" 3 ::
          [mkLoadAgent "a1" 1, mkLoadAgent "a2" 1, mkLoadAgent "a3" 5] = l1 ++ r :: l2 ∧
      (∀ b ∈ l1, r.current_load < b.current_load) ∧
      (∀ b ∈ l2, r.current_load ≤ b.current_load) :=
  claim_C7.1 ⟨loadedAgents, []⟩ (mkLoadAgent "a0" 3)
    [mkLoadAgent "a1" 1, mkLoadAgent "a2" 1, mkLoadAgent "a3" 5] rfl

/-! ## Substring correctness and escalation (claim C8) -/

theorem startsWithChars_iff (p s : List Char) :
    startsWithChars p s = true ↔ ∃ t, s = p ++ t := by
  induction p generalizing s with
  | nil =>
    simp [startsWithChars]
  | cons c p ih =>
    cases s with
    | nil =>
      simp [startsWithChars]
    | cons d s =>
      constructor
      · intro h
        simp only [startsWithChars, Bool.and_eq_true, beq_iff_eq] at h
        obtain ⟨t, ht⟩ := (ih s).mp h.2
        exact ⟨t, by simp [h.1, ht]⟩
      · rintro ⟨t, ht⟩
        simp only [List.cons_append, List.cons.injEq] at ht
        simp only [startsWithChars, Bool.and_eq_true, beq_iff_eq]
        exact ⟨ht.1.symm, (ih s).mpr ⟨t, ht.2⟩⟩

theorem containsSub_iff (p s : List Char) :
    containsSub p s = true ↔ ∃ l r, s = l ++ p ++ r := by
  induction s with
  | nil =>
    simp only [containsSub, List.isEmpty_iff]
    constructor
    · intro h
      exact ⟨[], [], by simp [h]⟩
    · rintro ⟨l, r, hlr⟩
      rcases List.append_eq_nil.mp (List.append_eq_nil.mp hlr.symm).1 with ⟨_, hp⟩
      exact hp
  | cons c s ih =>
    simp only [containsSub, Bool.or_eq_true, startsWithChars_iff, ih]
    constructor
    · rintro (⟨t, ht⟩ | ⟨l, r, hlr⟩)
      · exact ⟨[], t, by simp [ht]⟩
      · exact ⟨c :: l, r, by simp [hlr]⟩
    · rintro ⟨l, r, hlr⟩
      cases l with
      | nil =>
        simp only [List.nil_append] at hlr
        exact Or.inl ⟨r, hlr⟩
      | cons x l =>
        simp only [List.cons_append, List.cons.injEq] at hlr
        exact Or.inr ⟨l, r, hlr.2⟩

theorem analyze_for_escalation_iff (message resp : String) :
    analyze_for_escalation message resp = true ↔ SpecEscalation message := by
  simp only [analyze_for_escalation, List.any_eq_true, containsSub_iff, SpecEscalation]

/-- Claim C8: on a successful turn (conversation found, an agent assigned
or assignable, collaborator returns text), `requiresEscalation` is true
exactly when the lower-cased raw incoming message contains one of the ten
fixed keywords as a substring, and in that case the result carries the
fixed reason string.  The generated response text never influences the
decision (the theorem quantifies over arbitrary collaborator text). -/
theorem claim_C8 (db : DbState) (chats : ChatMap) (conversation_id message_content : String)
    (ctx : Option String) (text : String) (tOk tErr : Nat) (conv : Conversation)
    (hconv : get_conversation db conversation_id = some conv)
    (hagent : (conv.assigned_agent_id.bind (get_agent db)).isSome = true ∨
      (get_best_agent_for_conversation db).isSome = true) :
    ((generate_response db chats conversation_id message_content ctx (Except.ok text)
        tOk tErr).response.requires_human_escalation = true ↔
      SpecEscalation message_content) ∧
    ((generate_response db chats conversation_id message_content ctx (Except.ok text)
        tOk tErr).response.requires_human_escalation = true →
      (generate_response db chats conversation_id message_content ctx (Except.ok text)
          tOk tErr).response.escalation_reason =
        some "Complex issue requiring human expertise") := by
  have hesc : ∀ agent evs,
      (generate_response_with_agent db chats conv agent message_content ctx
          (Except.ok text) tOk tErr evs).response.requires_human_escalation =
        analyze_for_escalation message_content text ∧
      ((generate_response_with_agent db chats conv agent message_content ctx
          (Except.ok text) tOk tErr evs).response.requires_human_escalation = true →
        (generate_response_with_agent db chats conv agent message_content ctx
            (Except.ok text) tOk tErr evs).response.escalation_reason =
          some "Complex issue requiring human expertise") := by
    intro agent evs
    constructor
    · rfl
    · intro h
      simp only [generate_response_with_agent] at h ⊢
      simp [h]
  rcases hagent with hagent | hagent
  · obtain ⟨agent, hag⟩ := Option.isSome_iff_exists.mp hagent
    have hred : generate_response db chats conversation_id message_content ctx
        (Except.ok text) tOk tErr =
        generate_response_with_agent db chats conv agent message_content ctx
          (Except.ok text) tOk tErr [] := by
      simp only [generate_response, hconv, hag]
    rw [hred]
    exact ⟨(hesc agent []).1 ▸ analyze_for_escalation_iff message_content text,
      (hesc agent []).2⟩
  · obtain ⟨agent, hag⟩ := Option.isSome_iff_exists.mp hagent
    cases hassigned : conv.assigned_agent_id.bind (get_agent db) with
    | some agent0 =>
      have hred : generate_response db chats conversation_id message_content ctx
          (Except.ok text) tOk tErr =
          generate_response_with_agent db chats conv agent0 message_content ctx
            (Except.ok text) tOk tErr [] := by
        simp only [generate_response, hconv, hassigned]
      rw [hred]
      exact ⟨(hesc agent0 []).1 ▸ analyze_for_escalation_iff message_content text,
        (hesc agent0 []).2⟩
    | none =>
      have hred : generate_response db chats conversation_id message_content ctx
          (Except.ok text) tOk tErr =
          generate_response_with_agent
            (update_agent_load (assign_agent_to_conversation db conversation_id agent.id)
              agent.id 1)
            chats conv agent message_content ctx (Except.ok text) tOk tErr
            [Ev.assignAgent conversation_id agent.id, Ev.updateLoad agent.id 1] := by
        simp only [generate_response, hconv, hassigned, hag]
      rw [hred]
      constructor
      · exact (by rfl : (generate_response_with_agent _ chats conv agent message_content ctx
            (Except.ok text) tOk tErr _).response.requires_human_escalation =
              analyze_for_escalation message_content text) ▸
          analyze_for_escalation_iff message_content text
      · intro h
        simp only [generate_response_with_agent] at h ⊢
        simp [h]

/-- Witness for C8: the spec example messages. -/
theorem claim_C8_witness :
    (generate_response witnessDb [] "c1" "I want a refund now" none (Except.ok "resp")
        7 9).response.requires_human_escalation = true ∧
    (generate_response witnessDb [] "c1" "thanks, that helped" none (Except.ok "resp")
        7 9).response.requires_human_escalation = false := by
  constructor
  · exact (claim_C8 witnessDb [] "c1" "I want a refund now" none "resp" 7 9 witnessConv
      rfl (Or.inr rfl)).1.mpr
      ⟨"refund", by decide, "i want a ".data, " now".data, by decide⟩
  · have hiff := (claim_C8 witnessDb [] "c1" "thanks, that helped" none "resp" 7 9 witnessConv
      rfl (Or.inr rfl)).1
    cases hreq : (generate_response witnessDb [] "c1" "thanks, that helped" none
        (Except.ok "resp") 7 9).response.requires_human_escalation with
    | false => rfl
    | true =>
      have hspec := hiff.mp hreq
      have hana : analyze_for_escalation "thanks, that helped" "resp" = true :=
        (analyze_for_escalation_iff "thanks, that helped" "resp").mpr hspec
      exact absurd hana (by decide)

/-- Claim C1: for a conversation with an assigned or assignable agent, a
collaborator error during `generate_response` still yields the degraded
`AgentResponse`: the fixed apology record with confidence 0.1, agent id
"system", escalation required with reason "Technical error in AI system",
and the elapsed time sampled at the failure point; the error is never
propagated (the embedded `generate_response` is a total function into
`GenResult`, mirroring the catch-all except handler of the source). -/
theorem claim_C1 (db : DbState) (chats : ChatMap) (conversation_id message_content : String)
    (ctx : Option String) (e : String) (tOk tErr : Nat) (conv : Conversation)
    (hconv : get_conversation db conversation_id = some conv)
    (hagent : (conv.assigned_agent_id.bind (get_agent db)).isSome = true ∨
      (get_best_agent_for_conversation db).isSome = true) :
    (generate_response db chats conversation_id message_content ctx (Except.error e)
        tOk tErr).response = fallback_response tErr ∧
    (generate_response db chats conversation_id message_content ctx (Except.error e)
        tOk tErr).response.confidence = 1/10 ∧
    (generate_response db chats conversation_id message_content ctx (Except.error e)
        tOk tErr).response.agent_id = "system" ∧
    (generate_response db chats conversation_id message_content ctx (Except.error e)
        tOk tErr).response.requires_human_escalation = true ∧
    (generate_response db chats conversation_id message_content ctx (Except.error e)
        tOk tErr).response.escalation_reason = some "Technical error in AI system" ∧
    (generate_response db chats conversation_id message_content ctx (Except.error e)
        tOk tErr).response.processing_time_ms = tErr := by
  have hmain : (generate_response db chats conversation_id message_content ctx
      (Except.error e) tOk tErr).response = fallback_response tErr := by
    rcases hagent with hagent | hagent
    · obtain ⟨agent, hag⟩ := Option.isSome_iff_exists.mp hagent
      simp only [generate_response, hconv, hag]
      rfl
    · obtain ⟨agent, hag⟩ := Option.isSome_iff_exists.mp hagent
      cases hassigned : conv.assigned_agent_id.bind (get_agent db) with
      | some agent0 =>
        simp only [generate_response, hconv, hassigned]
        rfl
      | none =>
        simp only [generate_response, hconv, hassigned, hag]
        rfl
  refine ⟨hmain, ?_, ?_, ?_, ?_, ?_⟩ <;> rw [hmain] <;> rfl

/-- Witness for C1 at the concrete database. -/
theorem claim_C1_witness :
    (generate_response witnessDb [] "c1" "hello" none (Except.error "boom")
        7 9).response = fallback_response 9 ∧
    (generate_response witnessDb [] "c1" "hello" none (Except.error "boom")
        7 9).response.agent_id = "system" :=
  ⟨(claim_C1 witnessDb [] "c1" "hello" none "boom" 7 9 witnessConv rfl (Or.inr rfl)).1,
   (claim_C1 witnessDb [] "c1" "hello" none "boom" 7 9 witnessConv rfl (Or.inr rfl)).2.2.1⟩

/-! ## Session-map lemmas and claim C6 -/

theorem mem_map_fst_dictSet {α : Type} (x k : String) (v : α) (m : List (String × α)) :
    x ∈ (dictSet k v m).map Prod.fst ↔ x = k ∨ x ∈ m.map Prod.fst := by
  induction m with
  | nil => simp [dictSet]
  | cons p rest ih =>
    obtain ⟨k1, v1⟩ := p
    by_cases h : k1 = k
    · subst h
      simp [dictSet]
    · simp only [dictSet, if_neg h, List.map_cons, List.mem_cons, ih]
      tauto

theorem nodup_keys_dictSet {α : Type} (k : String) (v : α) (m : List (String × α))
    (h : (m.map Prod.fst).Nodup) : ((dictSet k v m).map Prod.fst).Nodup := by
  induction m with
  | nil => simp [dictSet]
  | cons p rest ih =>
    obtain ⟨k1, v1⟩ := p
    simp only [List.map_cons, List.nodup_cons] at h
    by_cases hk : k1 = k
    · subst hk
      simpa [dictSet] using h
    · simp only [dictSet, if_neg hk, List.map_cons, List.nodup_cons]
      refine ⟨?_, ih h.2⟩
      rw [mem_map_fst_dictSet]
      rintro (hh | hh)
      · exact hk hh
      · exact h.1 hh

theorem dictErase_sublist {α : Type} (k : String) (m : List (String × α)) :
    (dictErase k m).Sublist m := by
  induction m with
  | nil => simp [dictErase]
  | cons p rest ih =>
    obtain ⟨k1, v1⟩ := p
    by_cases h : k1 = k
    · simpa [dictErase, h] using ih.cons (k1, v1)
    · simpa [dictErase, h] using ih.cons₂ (k1, v1)

theorem nodup_keys_dictErase {α : Type} (k : String) (m : List (String × α))
    (h : (m.map Prod.fst).Nodup) : ((dictErase k m).map Prod.fst).Nodup :=
  h.sublist ((dictErase_sublist k m).map Prod.fst)

/-- Claim C6: the session map holds at most one chat per
`(agentId, sessionId)` key: a request for a key with an existing entry
returns that entry and leaves the map unchanged (reuse, not duplication,
and uniqueness of keys is preserved by both operations); `CloseSession`
removes the key and is idempotent (removing an absent key is a no-op);
re-requesting a closed key yields a freshly initialized chat whose
conversational context (`history`) is empty rather than the residual
context of the closed entry. -/
theorem claim_C6 :
    (∀ (chats : ChatMap) (agent : Agent) (session_id : String) (chat : LlmChat),
      dictGet (chatKey agent.id session_id) chats = some chat →
      getOrCreateChat chats agent session_id = (chat, chats)) ∧
    (∀ (chats : ChatMap) (agent_id session_id : String),
      dictGet (chatKey agent_id session_id)
          (cleanup_chat_session chats agent_id session_id) = none ∧
      cleanup_chat_session (cleanup_chat_session chats agent_id session_id)
          agent_id session_id = cleanup_chat_session chats agent_id session_id ∧
      (dictGet (chatKey agent_id session_id) chats = none →
        cleanup_chat_session chats agent_id session_id = chats)) ∧
    (∀ (chats : ChatMap) (agent : Agent) (session_id : String),
      (getOrCreateChat (cleanup_chat_session chats agent.id session_id) agent session_id).1 =
        initialize_agent_chat agent session_id ∧
      (getOrCreateChat (cleanup_chat_session chats agent.id session_id)
          agent session_id).1.history = []) ∧
    (∀ (chats : ChatMap) (agent : Agent) (session_id : String),
      (chats.map Prod.fst).Nodup →
      (((getOrCreateChat chats agent session_id).2).map Prod.fst).Nodup ∧
      ((cleanup_chat_session chats agent.id session_id).map Prod.fst).Nodup) := by
  have hclean : ∀ (chats : ChatMap) (agent_id session_id : String),
      dictGet (chatKey agent_id session_id)
        (cleanup_chat_session chats agent_id session_id) = none := by
    intro chats agent_id session_id
    unfold cleanup_chat_session
    cases h : dictGet (chatKey agent_id session_id) chats with
    | none => exact h
    | some c => exact dictGet_dictErase_self _ chats
  refine ⟨?_, ?_, ?_, ?_⟩
  · intro chats agent session_id chat h
    unfold getOrCreateChat
    rw [h]
  · intro chats agent_id session_id
    refine ⟨hclean chats agent_id session_id, ?_, ?_⟩
    · generalize hset : cleanup_chat_session chats agent_id session_id = m
      have h1 : dictGet (chatKey agent_id session_id) m = none :=
        hset ▸ hclean chats agent_id session_id
      unfold cleanup_chat_session
      rw [h1]
    · intro h
      unfold cleanup_chat_session
      rw [h]
  · intro chats agent session_id
    unfold getOrCreateChat
    rw [hclean chats agent.id session_id]
    exact ⟨rfl, rfl⟩
  · intro chats agent session_id h
    constructor
    · unfold getOrCreateChat
      cases hg : dictGet (chatKey agent.id session_id) chats with
      | some c => exact h
      | none => exact nodup_keys_dictSet _ _ chats h
    · unfold cleanup_chat_session
      cases hg : dictGet (chatKey agent.id session_id) chats with
      | some c => exact nodup_keys_dictErase _ chats h
      | none => exact h

/-- Witness for C6: a concrete map holding a residual chat under key
"a1_s1": the entry is reused as-is, and close-then-request yields a chat
with empty history. -/
theorem claim_C6_witness :
    getOrCreateChat [(chatKey "a1" "s1", residualChat)] (mkLoadAgent "a1" 0) "s1" =
        (residualChat, [(chatKey "a1" "s1", residualChat)]) ∧
    (getOrCreateChat (cleanup_chat_session [(chatKey "a1" "s1", residualChat)] "a1" "s1")
        (mkLoadAgent "a1" 0) "s1").1.history = [] := by
  constructor
  · exact claim_C6.1 [(chatKey "a1" "s1", residualChat)] (mkLoadAgent "a1" 0) "s1"
      residualChat rfl
  · exact (claim_C6.2.2.1 [(chatKey "a1" "s1", residualChat)] (mkLoadAgent "a1" 0) "s1").2

/-! ## Database-update lemmas and claim C9 -/

theorem find?_map_ite {α : Type} (p : α → Bool) (g : α → α) (l : List α)
    (hg : ∀ a, p a = true → p (g a) = true) :
    (l.map (fun a => if p a then g a else a)).find? p = (l.find? p).map g := by
  induction l with
  | nil => rfl
  | cons a rest ih =>
    by_cases h : p a
    · simp [List.find?_cons, h, hg a h]
    · simp [List.find?_cons, h, ih]

theorem find?_map_invariant {α : Type} (p : α → Bool) (f : α → α) (l : List α)
    (h1 : ∀ a, p (f a) = p a) (h2 : ∀ a, p a = true → f a = a) :
    (l.map f).find? p = l.find? p := by
  induction l with
  | nil => rfl
  | cons a rest ih =>
    by_cases h : p a
    · simp [List.find?_cons, h, h1 a, h2 a h]
    · simp [List.find?_cons, h, h1 a, ih]

/-- Counterexample to C9 as stated: a full qualifying turn (unassigned
conversation, selection succeeds) produces exactly the assignment write,
the load increment and the collaborator call: no broadcast of any kind —
in particular no agent-assigned notification — occurs during the turn. -/
theorem claim_C9_counterexample :
    (generate_response witnessDb [] "c1" "hi" none (Except.ok "resp") 7 9).events =
      [Ev.assignAgent "c1" "a1", Ev.updateLoad "a1" 1, Ev.llmCall "Customer Message: hi"] ∧
    ((generate_response witnessDb [] "c1" "hi" none (Except.ok "resp")
      7 9).events.filter isBroadcastEv) = [] := by
  constructor
  · rfl
  · rfl

/-- Claim C9 (amended): when ProcessTurn runs on a conversation with no
resolvable assigned agent and selection succeeds, the turn persists the
assignment, increments the chosen agent's load by exactly one (all other
agents untouched), and invokes the collaborator — but it does not notify
the conversation's participants: its effect trace is exactly assignment,
load increment and collaborator call, with no broadcast event
(`send_agent_assignment` is never invoked). -/
theorem claim_C9_amended (db : DbState) (chats : ChatMap)
    (conversation_id message_content : String) (ctx : Option String)
    (llm : Except String String) (tOk tErr : Nat) (conv : Conversation) (agent : Agent)
    (hconv : get_conversation db conversation_id = some conv)
    (hun : conv.assigned_agent_id.bind (get_agent db) = none)
    (hbest : get_best_agent_for_conversation db = some agent) :
    get_conversation
        (generate_response db chats conversation_id message_content ctx llm tOk tErr).db
        conversation_id = some { conv with assigned_agent_id := some agent.id } ∧
    get_agent
        (generate_response db chats conversation_id message_content ctx llm tOk tErr).db
        agent.id =
      (get_agent db agent.id).map (fun a => { a with current_load := a.current_load + 1 }) ∧
    (∀ x, x ≠ agent.id →
      get_agent
          (generate_response db chats conversation_id message_content ctx llm tOk tErr).db
          x = get_agent db x) ∧
    (generate_response db chats conversation_id message_content ctx llm tOk tErr).events =
      [Ev.assignAgent conversation_id agent.id, Ev.updateLoad agent.id 1,
       Ev.llmCall (build_full_message conv message_content ctx)] ∧
    (∀ e ∈ (generate_response db chats conversation_id message_content ctx llm
        tOk tErr).events, isBroadcastEv e = false) := by
  have hred : generate_response db chats conversation_id message_content ctx llm tOk tErr =
      generate_response_with_agent
        (update_agent_load (assign_agent_to_conversation db conversation_id agent.id)
          agent.id 1)
        chats conv agent message_content ctx llm tOk tErr
        [Ev.assignAgent conversation_id agent.id, Ev.updateLoad agent.id 1] := by
    simp only [generate_response, hconv, hun, hbest]
  have hdb : ∀ (db2 : DbState) (evs : List Ev),
      (generate_response_with_agent db2 chats conv agent message_content ctx llm
        tOk tErr evs).db = db2 := by
    intro db2 evs
    cases llm <;> rfl
  have hev : ∀ (db2 : DbState) (evs : List Ev),
      (generate_response_with_agent db2 chats conv agent message_content ctx llm
          tOk tErr evs).events =
        evs ++ [Ev.llmCall (build_full_message conv message_content ctx)] := by
    intro db2 evs
    cases llm <;> rfl
  refine ⟨?_, ?_, ?_, ?_, ?_⟩
  · rw [hred, hdb]
    have hassign : get_conversation
        (assign_agent_to_conversation db conversation_id agent.id) conversation_id =
        (get_conversation db conversation_id).map
          (fun c => { c with assigned_agent_id := some agent.id }) := by
      unfold get_conversation assign_agent_to_conversation
      exact find?_map_ite (fun c => c.id == conversation_id)
        (fun c => { c with assigned_agent_id := some agent.id }) db.conversations
        (fun a h => h)
    have : get_conversation
        (update_agent_load (assign_agent_to_conversation db conversation_id agent.id)
          agent.id 1) conversation_id =
        get_conversation (assign_agent_to_conversation db conversation_id agent.id)
          conversation_id := rfl
    rw [this, hassign, hconv]
    rfl
  · rw [hred, hdb]
    have hagents : get_agent (assign_agent_to_conversation db conversation_id agent.id)
        agent.id = get_agent db agent.id := rfl
    unfold get_agent update_agent_load
    rw [show (assign_agent_to_conversation db conversation_id agent.id).agents =
      db.agents from rfl]
    exact find?_map_ite (fun a => a.id == agent.id)
      (fun a => { a with current_load := a.current_load + 1 }) db.agents (fun a h => h)
  · intro x hx
    rw [hred, hdb]
    unfold get_agent update_agent_load
    rw [show (assign_agent_to_conversation db conversation_id agent.id).agents =
      db.agents from rfl]
    refine find?_map_invariant (fun a => a.id == x) _ db.agents ?_ ?_
    · intro a
      by_cases h : a.id == agent.id <;> simp [h]
    · intro a ha
      have : a.id = x := by simpa using ha
      have hne : (a.id == agent.id) = false := by
        simp [this]
        exact hx
      simp [hne]
  · rw [hred, hev]
    rfl
  · rw [hred, hev]
    intro e he
    simp only [List.cons_append, List.nil_append, List.mem_cons, List.not_mem_nil,
      or_false] at he
    rcases he with he | he | he <;> rw [he] <;> rfl

/-- Witness for the amended C9 at the concrete database. -/
theorem claim_C9_amended_witness :
    get_conversation
        (generate_response witnessDb [] "c1" "hi" none (Except.ok "resp") 7 9).db "c1" =
      some { witnessConv with assigned_agent_id := some "a1" } ∧
    get_agent (generate_response witnessDb [] "c1" "hi" none (Except.ok "resp") 7 9).db
        "a1" =
      (get_agent witnessDb "a1").map
        (fun a => { a with current_load := a.current_load + 1 }) := by
  have h := claim_C9_amended witnessDb [] "c1" "hi" none (Except.ok "resp") 7 9
    witnessConv (mkLoadAgent "a1" 0) rfl rfl rfl
  exact ⟨h.1, h.2.1⟩

theorem persistedBeforeBroadcast_append_neutral (l : List Ev)
    (h : ∀ e ∈ l, evNeutral e = true) (seen : List (MessageType × String))
    (rest : List Ev) :
    persistedBeforeBroadcast seen (l ++ rest) = persistedBeforeBroadcast seen rest := by
  induction l with
  | nil => rfl
  | cons e l ih =>
    have he := h e (by simp)
    have hl : ∀ x ∈ l, evNeutral x = true := fun x hx => h x (by simp [hx])
    cases e with
    | persistMsg a b c => simp [evNeutral] at he
    | broadcastMsg a b c => simp [evNeutral] at he
    | assignAgent a b => simpa [persistedBeforeBroadcast] using ih hl
    | updateLoad a b => simpa [persistedBeforeBroadcast] using ih hl
    | llmCall a => simpa [persistedBeforeBroadcast] using ih hl
    | broadcastAgentAssigned a b => simpa [persistedBeforeBroadcast] using ih hl
    | broadcastEscalation a b => simpa [persistedBeforeBroadcast] using ih hl
    | setStatus a b => simpa [persistedBeforeBroadcast] using ih hl

/-- The effect trace of `generate_response` contains no message persist and
no message broadcast: its only events are the assignment write, the load
increment and the collaborator call. -/
theorem gen_events_neutral (db : DbState) (chats : ChatMap)
    (conversation_id message_content : String) (ctx : Option String)
    (llm : Except String String) (tOk tErr : Nat) :
    ∀ e ∈ (generate_response db chats conversation_id message_content ctx llm
      tOk tErr).events, evNeutral e = true := by
  intro e he
  cases hc : get_conversation db conversation_id with
  | none =>
    simp only [generate_response, hc] at he
    simp at he
  | some conv =>
    cases ha : conv.assigned_agent_id.bind (get_agent db) with
    | some agent =>
      simp only [generate_response, hc, ha] at he
      cases llm with
      | error err =>
        simp only [generate_response_with_agent, List.nil_append, List.mem_singleton] at he
        rw [he]
        rfl
      | ok text =>
        simp only [generate_response_with_agent, List.nil_append, List.mem_singleton] at he
        rw [he]
        rfl
    | none =>
      cases hb : get_best_agent_for_conversation db with
      | none =>
        simp only [generate_response, hc, ha, hb] at he
        simp at he
      | some agent =>
        simp only [generate_response, hc, ha, hb] at he
        cases llm with
        | error err =>
          simp only [generate_response_with_agent, List.cons_append, List.nil_append,
            List.mem_cons, List.not_mem_nil, or_false] at he
          rcases he with he | he | he <;> rw [he] <;> rfl
        | ok text =>
          simp only [generate_response_with_agent, List.cons_append, List.nil_append,
            List.mem_cons, List.not_mem_nil, or_false] at he
          rcases he with he | he | he <;> rw [he] <;> rfl

theorem get_conversation_add (db : DbState) (conversation_id : String) (m : Msg) :
    get_conversation (add_message_to_conversation db conversation_id m) conversation_id =
      (get_conversation db conversation_id).map
        (fun c => { c with messages := c.messages ++ [m] }) := by
  unfold get_conversation add_message_to_conversation
  dsimp only
  exact find?_map_ite (fun c => c.id == conversation_id)
    (fun c => { c with messages := c.messages ++ [m] }) db.conversations (fun a h => h)

theorem get_conversation_status (db : DbState) (conversation_id : String)
    (st : ConversationStatus) :
    get_conversation (update_conversation_status db conversation_id st) conversation_id =
      (get_conversation db conversation_id).map (fun c => { c with status := st }) := by
  unfold get_conversation update_conversation_status
  dsimp only
  exact find?_map_ite (fun c => c.id == conversation_id)
    (fun c => { c with status := st }) db.conversations (fun a h => h)

/-- `generate_response` never changes the stored message history: the
conversation is still found and its messages are unchanged (only the
assignment field may have been set). -/
theorem gen_db_conversation (db : DbState) (chats : ChatMap)
    (conversation_id message_content : String) (ctx : Option String)
    (llm : Except String String) (tOk tErr : Nat) (conv : Conversation)
    (h : get_conversation db conversation_id = some conv) :
    ∃ conv2, get_conversation
        (generate_response db chats conversation_id message_content ctx llm tOk tErr).db
        conversation_id = some conv2 ∧ conv2.messages = conv.messages := by
  cases ha : conv.assigned_agent_id.bind (get_agent db) with
  | some agent =>
    have hred : (generate_response db chats conversation_id message_content ctx llm
        tOk tErr).db = db := by
      simp only [generate_response, h, ha]
      cases llm <;> rfl
    exact ⟨conv, by rw [hred]; exact h, rfl⟩
  | none =>
    cases hb : get_best_agent_for_conversation db with
    | none =>
      have hred : (generate_response db chats conversation_id message_content ctx llm
          tOk tErr).db = db := by
        simp only [generate_response, h, ha, hb]
      exact ⟨conv, by rw [hred]; exact h, rfl⟩
    | some agent =>
      have hred : (generate_response db chats conversation_id message_content ctx llm
          tOk tErr).db =
          update_agent_load (assign_agent_to_conversation db conversation_id agent.id)
            agent.id 1 := by
        simp only [generate_response, h, ha, hb]
        cases llm <;> rfl
      refine ⟨{ conv with assigned_agent_id := some agent.id }, ?_, rfl⟩
      rw [hred]
      have hassign : get_conversation
          (assign_agent_to_conversation db conversation_id agent.id) conversation_id =
          (get_conversation db conversation_id).map
            (fun c => { c with assigned_agent_id := some agent.id }) := by
        unfold get_conversation assign_agent_to_conversation
        dsimp only
        exact find?_map_ite (fun c => c.id == conversation_id)
          (fun c => { c with assigned_agent_id := some agent.id }) db.conversations
          (fun a hh => hh)
      have hload : get_conversation
          (update_agent_load (assign_agent_to_conversation db conversation_id agent.id)
            agent.id 1) conversation_id =
          get_conversation (assign_agent_to_conversation db conversation_id agent.id)
            conversation_id := rfl
      rw [hload, hassign, h]
      rfl

/-- Claim C4: for every found conversation, `send_message` returns a
result whose effect trace persists the inbound message and the outbound
message before any message broadcast (every broadcast event concerns an
already persisted message), and after the turn both messages are
retrievable from stored history. -/
theorem claim_C4 (db : DbState) (chats : ChatMap) (conversation_id content : String)
    (ctx : Option String) (llm : Except String String) (tOk tErr : Nat)
    (conv : Conversation)
    (hconv : get_conversation db conversation_id = some conv) :
    ∃ t, send_message db chats conversation_id content ctx llm tOk tErr = Except.ok t ∧
      persistedBeforeBroadcast [] t.events = true ∧
      Ev.persistMsg conversation_id MessageType.user content ∈ t.events ∧
      Ev.persistMsg conversation_id MessageType.agent t.response.message ∈ t.events ∧
      Ev.broadcastMsg conversation_id MessageType.user content ∈ t.events ∧
      Ev.broadcastMsg conversation_id MessageType.agent t.response.message ∈ t.events ∧
      ∃ conv2, get_conversation t.db conversation_id = some conv2 ∧
        Msg.mk MessageType.user content ∈ conv2.messages ∧
        Msg.mk MessageType.agent t.response.message ∈ conv2.messages := by
  simp only [send_message, hconv]
  refine ⟨_, rfl, ?_, ?_, ?_, ?_, ?_, ?_⟩
  · dsimp only
    simp only [persistedBeforeBroadcast]
    rw [List.append_assoc]
    rw [persistedBeforeBroadcast_append_neutral _
      (gen_events_neutral (add_message_to_conversation db conversation_id
        { sender_type := MessageType.user, content := content }) chats conversation_id
        content ctx llm tOk tErr)]
    cases hesc : (generate_response (add_message_to_conversation db conversation_id
        { sender_type := MessageType.user, content := content }) chats conversation_id
        content ctx llm tOk tErr).response.requires_human_escalation <;>
      simp [persistedBeforeBroadcast, hesc]
  · dsimp only
    simp
  · dsimp only
    simp
  · dsimp only
    simp
  · dsimp only
    simp
  · dsimp only
    have h1 : get_conversation (add_message_to_conversation db conversation_id
        { sender_type := MessageType.user, content := content }) conversation_id =
        some { conv with messages := conv.messages ++
          [{ sender_type := MessageType.user, content := content }] } := by
      rw [get_conversation_add, hconv]
      rfl
    obtain ⟨convG, hG, hGm⟩ := gen_db_conversation
      (add_message_to_conversation db conversation_id
        { sender_type := MessageType.user, content := content })
      chats conversation_id content ctx llm tOk tErr _ h1
    have h3 : get_conversation
        (add_message_to_conversation
          (generate_response (add_message_to_conversation db conversation_id
            { sender_type := MessageType.user, content := content }) chats conversation_id
            content ctx llm tOk tErr).db
          conversation_id
          { sender_type := MessageType.agent,
            content := (generate_response (add_message_to_conversation db conversation_id
              { sender_type := MessageType.user, content := content }) chats conversation_id
              content ctx llm tOk tErr).response.message }) conversation_id =
        some { convG with messages := convG.messages ++
          [{ sender_type := MessageType.agent,
             content := (generate_response (add_message_to_conversation db conversation_id
               { sender_type := MessageType.user, content := content }) chats conversation_id
               content ctx llm tOk tErr).response.message }] } := by
      rw [get_conversation_add, hG]
      rfl
    have hGm2 : convG.messages = conv.messages ++
        [{ sender_type := MessageType.user, content := content }] := by
      rw [hGm]
    cases hesc : (generate_response (add_message_to_conversation db conversation_id
        { sender_type := MessageType.user, content := content }) chats conversation_id
        content ctx llm tOk tErr).response.requires_human_escalation
    · simp only [hesc, Bool.false_eq_true, if_false]
      refine ⟨_, h3, ?_, ?_⟩
      · rw [hGm2]
        simp [Msg.mk]
      · simp [Msg.mk]
    · simp only [hesc, if_true]
      rw [get_conversation_status, h3]
      refine ⟨_, rfl, ?_, ?_⟩
      · rw [List.mem_append] at *
        left
        rw [hGm2]
        simp [Msg.mk]
      · simp [Msg.mk]

/-- Witness for C4 at the concrete database. -/
theorem claim_C4_witness :
    ∃ t, send_message witnessDb [] "c1" "hello" none (Except.ok "resp") 7 9 =
        Except.ok t ∧
      persistedBeforeBroadcast [] t.events = true ∧
      Ev.persistMsg "c1" MessageType.user "hello" ∈ t.events ∧
      Ev.persistMsg "c1" MessageType.agent t.response.message ∈ t.events ∧
      Ev.broadcastMsg "c1" MessageType.user "hello" ∈ t.events ∧
      Ev.broadcastMsg "c1" MessageType.agent t.response.message ∈ t.events ∧
      ∃ conv2, get_conversation t.db "c1" = some conv2 ∧
        Msg.mk MessageType.user "hello" ∈ conv2.messages ∧
        Msg.mk MessageType.agent t.response.message ∈ conv2.messages :=
  claim_C4 witnessDb [] "c1" "hello" none (Except.ok "resp") 7 9 witnessConv rfl

theorem connect_direct (s : ConnState) (ws : Nat) (conversation_id user_id : String)
    (user_type : String) (hu : user_type = "agent" ∨ user_type = "customer") :
    dictGet user_id
      (directTable user_type
        (connect_to_conversation s ws conversation_id user_type user_id)) = some ws := by
  rcases hu with hu | hu <;> subst hu <;>
    simp [connect_to_conversation, directTable, dictGet_dictSet_self]

theorem disconnect_group_step_agent (s : ConnState) (ws : Nat) (conversation_id : String) :
    (disconnect_group_step s ws conversation_id).agent_connections =
      s.agent_connections := by
  unfold disconnect_group_step
  cases hg : dictGet conversation_id s.active_connections with
  | none => rfl
  | some group =>
    by_cases he : (if ws ∈ group then group.erase ws else group).isEmpty <;> simp [he]

theorem disconnect_group_step_customer (s : ConnState) (ws : Nat)
    (conversation_id : String) :
    (disconnect_group_step s ws conversation_id).customer_connections =
      s.customer_connections := by
  unfold disconnect_group_step
  cases hg : dictGet conversation_id s.active_connections with
  | none => rfl
  | some group =>
    by_cases he : (if ws ∈ group then group.erase ws else group).isEmpty <;> simp [he]

theorem disconnect_direct_step_agent (s : ConnState) (ws : Nat) (user_id : String) :
    (disconnect_direct_step s ws user_id).agent_connections =
      if dictGet user_id s.agent_connections = some ws then
        dictErase user_id s.agent_connections
      else s.agent_connections := by
  unfold disconnect_direct_step
  by_cases h1 : dictGet user_id s.agent_connections = some ws <;>
    by_cases h2 : dictGet user_id s.customer_connections = some ws <;>
      simp [h1, h2]

theorem disconnect_direct_step_customer (s : ConnState) (ws : Nat) (user_id : String) :
    (disconnect_direct_step s ws user_id).customer_connections =
      if dictGet user_id s.customer_connections = some ws then
        dictErase user_id s.customer_connections
      else s.customer_connections := by
  unfold disconnect_direct_step
  by_cases h1 : dictGet user_id s.agent_connections = some ws <;>
    by_cases h2 : dictGet user_id s.customer_connections = some ws <;>
      simp [h1, h2]

theorem disconnect_direct_step_active (s : ConnState) (ws : Nat) (user_id : String) :
    (disconnect_direct_step s ws user_id).active_connections = s.active_connections := by
  unfold disconnect_direct_step
  by_cases h1 : dictGet user_id s.agent_connections = some ws <;>
    by_cases h2 : dictGet user_id s.customer_connections = some ws <;>
      simp [h1, h2]

theorem disconnect_typing_step_agent (s : ConnState) (conversation_id user_id : String) :
    (disconnect_typing_step s conversation_id user_id).agent_connections =
      s.agent_connections := by
  unfold disconnect_typing_step
  cases hg : dictGet conversation_id s.typing_indicators with
  | none => rfl
  | some typers => by_cases he : (typers.erase user_id).isEmpty <;> simp [he]

theorem disconnect_typing_step_customer (s : ConnState)
    (conversation_id user_id : String) :
    (disconnect_typing_step s conversation_id user_id).customer_connections =
      s.customer_connections := by
  unfold disconnect_typing_step
  cases hg : dictGet conversation_id s.typing_indicators with
  | none => rfl
  | some typers => by_cases he : (typers.erase user_id).isEmpty <;> simp [he]

theorem disconnect_typing_step_active (s : ConnState) (conversation_id user_id : String) :
    (disconnect_typing_step s conversation_id user_id).active_connections =
      s.active_connections := by
  unfold disconnect_typing_step
  cases hg : dictGet conversation_id s.typing_indicators with
  | none => rfl
  | some typers => by_cases he : (typers.erase user_id).isEmpty <;> simp [he]

theorem disconnect_agent_table (s : ConnState) (ws : Nat)
    (conversation_id user_id : String) :
    (disconnect_from_conversation s ws conversation_id user_id).agent_connections =
      if dictGet user_id s.agent_connections = some ws then
        dictErase user_id s.agent_connections
      else s.agent_connections := by
  unfold disconnect_from_conversation
  rw [disconnect_typing_step_agent, disconnect_direct_step_agent,
    disconnect_group_step_agent]

theorem disconnect_customer_table (s : ConnState) (ws : Nat)
    (conversation_id user_id : String) :
    (disconnect_from_conversation s ws conversation_id user_id).customer_connections =
      if dictGet user_id s.customer_connections = some ws then
        dictErase user_id s.customer_connections
      else s.customer_connections := by
  unfold disconnect_from_conversation
  rw [disconnect_typing_step_customer, disconnect_direct_step_customer,
    disconnect_group_step_customer]

theorem disconnect_group_noop (s : ConnState) (ws : Nat)
    (conversation_id user_id : String) (group : List Nat)
    (hg : dictGet conversation_id s.active_connections = some group)
    (hmem : ws ∉ group) (hne : group ≠ []) :
    (disconnect_from_conversation s ws conversation_id user_id).active_connections =
      s.active_connections := by
  have h1 : (disconnect_group_step s ws conversation_id).active_connections =
      s.active_connections := by
    unfold disconnect_group_step
    rw [hg]
    have hne2 : ¬(group.isEmpty = true) := by
      simpa [List.isEmpty_iff] using hne
    simp only [if_neg hmem, if_neg hne2]
    exact dictSet_of_dictGet_eq conversation_id group s.active_connections hg
  unfold disconnect_from_conversation
  rw [disconnect_typing_step_active, disconnect_direct_step_active, h1]

theorem applyConnOps_direct (user_type : String)
    (hu : user_type = "agent" ∨ user_type = "customer")
    (conversation_id user_id : String) :
    ∀ (ops : List ConnOp) (s : ConnState),
      dictGet user_id
          (directTable user_type (applyConnOps conversation_id user_id user_type s ops)) =
        directFold (dictGet user_id (directTable user_type s)) ops := by
  intro ops
  induction ops with
  | nil => intro s; rfl
  | cons op rest ih =>
    intro s
    cases op with
    | connect ws =>
      have hstep := connect_direct s ws conversation_id user_id user_type hu
      simp only [applyConnOps, directFold]
      rw [ih, hstep]
    | disconnect ws =>
      have hstep : dictGet user_id
          (directTable user_type (disconnect_from_conversation s ws conversation_id
            user_id)) =
          if dictGet user_id (directTable user_type s) = some ws then none
          else dictGet user_id (directTable user_type s) := by
        rcases hu with hu | hu <;> subst hu
        · simp only [directTable, if_pos rfl]
          rw [disconnect_agent_table]
          by_cases h : dictGet user_id s.agent_connections = some ws
          · simp [h, dictGet_dictErase_self]
          · simp [h]
        · simp only [directTable, if_neg (by decide : ¬("customer" = "agent"))]
          rw [disconnect_customer_table]
          by_cases h : dictGet user_id s.customer_connections = some ws
          · simp [h, dictGet_dictErase_self]
          · simp [h]
      simp only [applyConnOps, directFold]
      rw [ih, hstep]

theorem lastLiveAux_congr (l : List ConnOp) :
    ∀ (a b : List Nat), (∀ x, x ∈ a ↔ x ∈ b) → lastLiveAux l a = lastLiveAux l b := by
  induction l with
  | nil => intro a b hab; rfl
  | cons op rest ih =>
    intro a b hab
    cases op with
    | connect w =>
      by_cases hw : w ∈ a
      · simp [lastLiveAux, hw, (hab w).mp hw]
      · have hwb : w ∉ b := fun h => hw ((hab w).mpr h)
        simp [lastLiveAux, hw, hwb]
    | disconnect w =>
      simp only [lastLiveAux]
      refine ih _ _ ?_
      intro x
      simp [List.mem_cons, hab x]

theorem lastLiveAux_extra_disc (l : List ConnOp) :
    ∀ (laterDiscs : List Nat) (w : Nat),
      lastLiveAux l (w :: laterDiscs) =
        if lastLiveAux l laterDiscs = some w then none
        else lastLiveAux l laterDiscs := by
  induction l with
  | nil => intro laterDiscs w; simp [lastLiveAux]
  | cons op rest ih =>
    intro laterDiscs w
    cases op with
    | connect v =>
      by_cases hv : v ∈ laterDiscs
      · simp [lastLiveAux, hv, List.mem_cons]
      · by_cases hvw : v = w
        · have hw2 : w ∉ laterDiscs := hvw ▸ hv
          simp [lastLiveAux, hvw, hw2]
        · simp [lastLiveAux, hv, hvw, List.mem_cons]
    | disconnect v =>
      simp only [lastLiveAux]
      rw [lastLiveAux_congr rest (v :: w :: laterDiscs) (w :: v :: laterDiscs)
        (by intro x; simp [List.mem_cons]; tauto)]
      exact ih (v :: laterDiscs) w

theorem directFold_append (ops : List ConnOp) (op : ConnOp) :
    ∀ c, directFold c (ops ++ [op]) =
      (match op with
       | ConnOp.connect w => some w
       | ConnOp.disconnect w =>
         if directFold c ops = some w then none else directFold c ops) := by
  induction ops with
  | nil => intro c; cases op <;> rfl
  | cons o rest ih =>
    intro c
    cases o with
    | connect w => simpa [directFold] using ih (some w)
    | disconnect w =>
      simpa [directFold] using ih (if c = some w then none else c)

theorem directFold_eq_spec (ops : List ConnOp) :
    directFold none ops = specLastConnectSurvivor ops := by
  induction ops using List.reverseRecOn with
  | nil => rfl
  | append_singleton l op ih =>
    cases op with
    | connect w =>
      rw [directFold_append]
      unfold specLastConnectSurvivor
      rw [List.reverse_append]
      simp [lastLiveAux]
    | disconnect w =>
      rw [directFold_append, ih]
      unfold specLastConnectSurvivor
      rw [List.reverse_append]
      simp only [List.reverse_cons, List.reverse_nil, List.nil_append,
        List.singleton_append, lastLiveAux]
      rw [lastLiveAux_extra_disc]
      simp

/-- Claim C5: (1) for every finite Connect/Disconnect sequence on one
`(conversation, participant)` pair of either role, starting from a state
with no direct entry for the participant, the final direct-address table
holds exactly the channel of the last Connect provided that Connect has
not been followed by a matching Disconnect, and no entry otherwise;
(2) disconnecting a channel absent from a nonempty conversation group
leaves the group table unchanged (idempotent disconnect, no-op on absent
handles); (3) a disconnect removes a direct-address entry only when the
entry still points at the disconnected channel. -/
theorem claim_C5 :
    (∀ user_type : String, user_type = "agent" ∨ user_type = "customer" →
      ∀ (conversation_id user_id : String) (s0 : ConnState) (ops : List ConnOp),
      dictGet user_id (directTable user_type s0) = none →
      dictGet user_id
          (directTable user_type (applyConnOps conversation_id user_id user_type s0 ops)) =
        specLastConnectSurvivor ops) ∧
    (∀ (s : ConnState) (ws : Nat) (conversation_id user_id : String) (group : List Nat),
      dictGet conversation_id s.active_connections = some group → ws ∉ group →
      group ≠ [] →
      (disconnect_from_conversation s ws conversation_id user_id).active_connections =
        s.active_connections) ∧
    (∀ (s : ConnState) (ws : Nat) (conversation_id user_id : String),
      dictGet user_id
          (disconnect_from_conversation s ws conversation_id user_id).agent_connections =
        (if dictGet user_id s.agent_connections = some ws then none
         else dictGet user_id s.agent_connections) ∧
      dictGet user_id
          (disconnect_from_conversation s ws conversation_id user_id).customer_connections =
        (if dictGet user_id s.customer_connections = some ws then none
         else dictGet user_id s.customer_connections)) := by
  refine ⟨?_, ?_, ?_⟩
  · intro user_type hu conversation_id user_id s0 ops h0
    rw [applyConnOps_direct user_type hu conversation_id user_id ops s0, h0]
    exact directFold_eq_spec ops
  · intro s ws conversation_id user_id group hg hmem hne
    exact disconnect_group_noop s ws conversation_id user_id group hg hmem hne
  · intro s ws conversation_id user_id
    constructor
    · rw [disconnect_agent_table]
      by_cases h : dictGet user_id s.agent_connections = some ws
      · simp [h, dictGet_dictErase_self]
      · simp [h]
    · rw [disconnect_customer_table]
      by_cases h : dictGet user_id s.customer_connections = some ws
      · simp [h, dictGet_dictErase_self]
      · simp [h]

/-- Witness for C5: the sequence connect 1, connect 2, disconnect 1 from
the empty registry leaves channel 2 as the direct entry (the stale
disconnect of channel 1 does not remove the newer entry), matching the
specification function; and a disconnect of an unrelated channel keeps the
direct entry of `c3state`. -/
theorem claim_C5_witness :
    dictGet "u" (directTable "customer"
        (applyConnOps "c" "u" "customer" ConnState.empty
          [ConnOp.connect 1, ConnOp.connect 2, ConnOp.disconnect 1])) =
      specLastConnectSurvivor [ConnOp.connect 1, ConnOp.connect 2, ConnOp.disconnect 1] ∧
    dictGet "u" (disconnect_from_conversation c3state 7 "c" "u").agent_connections =
      (if dictGet "u" c3state.agent_connections = some 7 then none
       else dictGet "u" c3state.agent_connections) :=
  ⟨claim_C5.1 "customer" (Or.inr rfl) "c" "u" ConnState.empty
      [ConnOp.connect 1, ConnOp.connect 2, ConnOp.disconnect 1] rfl,
   (claim_C5.2.2 c3state 7 "c" "u").1⟩
